import Mathlib

/-!
Shallow embedding of the scroll-to-active-section engine of
progress-nav-scrollspy: the active-set resolver, position cache, path
geometry calculator, TOC autoscroll synchronizer, scroll-velocity tracker
(src/dist/hooks.js, src/src/ProgressNavScrollspy.tsx) and the nested-TOC
structure builders (src/src/utils.ts). Pixel quantities are rationals;
DOM measurement is an explicit environment mapping ids to optional
bounding rectangles.
-/

namespace PNS

/-- A bounding rectangle reduced to the vertical extent the engine reads. -/
structure Rect where
  top : ℚ
  bottom : ℚ
deriving DecidableEq, Repr

/-- A heading catalog entry: `{id, text, level}` (`TocItem` in src/types). -/
structure TocItem where
  id : String
  text : String
  level : Nat
deriving DecidableEq, Repr

/-- The content scroll container's measured geometry plus the DOM lookup
`document.getElementById` for heading elements: `none` when the backing
element is missing (hooks.js lines 115-125). -/
structure ScrollView where
  containerTop : ℚ
  viewportHeight : ℚ
  dom : String → Option Rect

/-- `headingTop = rect.top - containerTop` (hooks.js line 124). -/
def ScrollView.headingTop (v : ScrollView) (r : Rect) : ℚ :=
  r.top - v.containerTop

/-- `headingBottom = rect.bottom - containerTop` (hooks.js line 125). -/
def ScrollView.headingBottom (v : ScrollView) (r : Rect) : ℚ :=
  r.bottom - v.containerTop

/-- The visibility test of hooks.js line 126:
`headingTop < viewportHeight * viewportThreshold && headingBottom > -offset`. -/
def isVisible (v : ScrollView) (offset viewportThreshold : ℚ) (r : Rect) : Bool :=
  decide (v.headingTop r < v.viewportHeight * viewportThreshold) &&
    decide (v.headingBottom r > -offset)

/-- The first stage of `updateActiveItems` (hooks.js lines 118-130): walk the
catalog in order, keep the measured items passing `isVisible`; items whose
element is missing are skipped. -/
def visibleItems (v : ScrollView) (offset viewportThreshold : ℚ)
    (items : List TocItem) : List TocItem :=
  items.filter fun it =>
    match v.dom it.id with
    | none => false
    | some r => isVisible v offset viewportThreshold r

/-- One step of the fallback scan of hooks.js lines 135-148: a measured item
strictly above the container top (`headingTop < 0`) replaces the accumulator
when its distance `|headingTop|` is strictly smaller. -/
def scanStep (v : ScrollView) (acc : Option (TocItem × ℚ)) (it : TocItem) :
    Option (TocItem × ℚ) :=
  match v.dom it.id with
  | none => acc
  | some r =>
    let ht := v.headingTop r
    if ht < 0 then
      let d := |ht|
      match acc with
      | none => some (it, d)
      | some (_, cd) => if d < cd then some (it, d) else acc
    else acc

/-- The fallback scan of hooks.js lines 132-148: the measured item closest
above the viewport, with its distance. -/
def closestScan (v : ScrollView) (items : List TocItem) : Option (TocItem × ℚ) :=
  items.foldl (scanStep v) none

/-- The full active-set resolver of `updateActiveItems` (hooks.js lines
118-155): the visibility filter, then the empty-set fallback (closest item
scrolled past, else the first catalog item). -/
def resolveActive (v : ScrollView) (offset viewportThreshold : ℚ)
    (items : List TocItem) : List TocItem :=
  let vis := visibleItems v offset viewportThreshold items
  if vis.isEmpty then
    match closestScan v items with
    | some (it, _) => [it]
    | none =>
      match items with
      | [] => []
      | x :: _ => [x]
  else vis

/-- Default `offset` (hooks.js line 25). -/
def defaultOffset : ℚ := 100

/-- Default `viewportThreshold` (hooks.js line 25). -/
def defaultViewportThreshold : ℚ := 8 / 10

/-- Default `velocityThreshold` in px/ms (hooks.js line 25). -/
def defaultVelocityThreshold : ℚ := 2

/-- Default `tocScrollPadding` (hooks.js line 25). -/
def defaultTocScrollPadding : ℚ := 20

/-! ## Position cache (hooks.js lines 34-78) -/

/-- One rendered `.pns-link` element as the cache recomputation reads it:
its `data-item-id` attribute (possibly absent) and its viewport-relative
bounding rectangle. -/
structure TocDomLink where
  itemId : Option String
  rect : Rect
deriving DecidableEq, Repr

/-- The TOC list container's rendered state: the `.pns-list` bounding-box
top and the rendered links in DOM order. -/
structure TocDom where
  listTop : ℚ
  links : List TocDomLink
deriving DecidableEq, Repr

/-- JavaScript `Map.set` on an association list: replace in place when the
key is present, append otherwise (insertion order preserved). -/
def mapSet : List (String × Rect) → String → Rect → List (String × Rect)
  | [], k, r => [(k, r)]
  | (k', r') :: rest, k, r =>
    if k' = k then (k, r) :: rest else (k', r') :: mapSet rest k r

/-- The from-scratch recomputation of hooks.js lines 55-69: every rendered
link with a `data-item-id`, its rectangle taken relative to the list
container's top. -/
def recomputePositions (dom : TocDom) : List (String × Rect) :=
  dom.links.foldl
    (fun m l =>
      match l.itemId with
      | none => m
      | some id =>
        mapSet m id ⟨l.rect.top - dom.listTop, l.rect.bottom - dom.listTop⟩)
    []

/-- The cache refs of hooks.js lines 35-36: the cached mapping (none when
never populated) and the staleness flag. -/
structure PositionCache where
  cache : Option (List (String × Rect))
  invalidated : Bool
deriving DecidableEq, Repr

/-- `getLinkPositions` (hooks.js lines 45-74): return the cache as-is when
valid, otherwise recompute, repopulate and clear staleness. -/
def getLinkPositions (s : PositionCache) (dom : TocDom) :
    List (String × Rect) × PositionCache :=
  match s.invalidated, s.cache with
  | false, some m => (m, s)
  | _, _ =>
    let p := recomputePositions dom
    (p, ⟨some p, false⟩)

/-- `handleResize` (hooks.js lines 76-78): mark the cache stale. -/
def handleResize (s : PositionCache) : PositionCache :=
  { s with invalidated := true }

/-! ## Scroll velocity (hooks.js lines 84-96) -/

/-- The velocity computation of hooks.js lines 87-90:
`deltaTime > 0 ? deltaScroll / deltaTime : 0`. -/
def computeVelocity (currentScrollTop lastScrollTop currentTime lastTime : ℚ) : ℚ :=
  let deltaScroll := |currentScrollTop - lastScrollTop|
  let deltaTime := currentTime - lastTime
  if 0 < deltaTime then deltaScroll / deltaTime else 0

/-- hooks.js line 93: `isFastScrolling = velocity > velocityThreshold`. -/
def isFastScrolling (velocity velocityThreshold : ℚ) : Bool :=
  decide (velocity > velocityThreshold)

/-! ## Path geometry (hooks.js lines 289-367) -/

/-- One entry of `calculatePath`'s `linkPositions` array (hooks.js line 319). -/
structure LinkPosition where
  id : String
  top : ℚ
  bottom : ℚ
deriving DecidableEq, Repr

/-- The `pathInfo` record set by `calculatePath` (hooks.js lines 290-296,
minus the rendered path string). -/
structure PathInfo where
  startY : ℚ
  endY : ℚ
  activeStartY : ℚ
  activeEndY : ℚ
deriving DecidableEq, Repr

/-- The active-position filter of hooks.js lines 328-329: link positions
whose id is in the active set, in link (catalog) order. -/
def activeLinks (linkPositions : List LinkPosition) (activeIds : List String) :
    List LinkPosition :=
  linkPositions.filter fun lp => activeIds.contains lp.id

/-- `calculatePath` (hooks.js lines 297-338) on an already-measured
`linkPositions` array: `none` models the early return on an empty array;
otherwise the track spans first top to last bottom, and the active span
falls back to `(startY, startY)` when nothing is active. -/
def calculatePath (linkPositions : List LinkPosition) (activeIds : List String) :
    Option PathInfo :=
  match linkPositions with
  | [] => none
  | lp0 :: rest =>
    let startY := lp0.top
    let endY := (rest.getLastD lp0).bottom
    match activeLinks (lp0 :: rest) activeIds with
    | [] => some ⟨startY, endY, startY, startY⟩
    | a0 :: arest => some ⟨startY, endY, a0.top, (arest.getLastD a0).bottom⟩

/-- The `pathData` triple (hooks.js lines 351-360). -/
structure PathData where
  totalLength : ℚ
  activeStart : ℚ
  activeLength : ℚ
deriving DecidableEq, Repr

/-- `pathData` (hooks.js lines 351-360): clamp everything to 0 when the
track has no positive length. -/
def pathData (pi : PathInfo) : PathData :=
  let totalLength := pi.endY - pi.startY
  if totalLength ≤ 0 then ⟨0, 0, 0⟩
  else ⟨totalLength, pi.activeStartY - pi.startY, pi.activeEndY - pi.activeStartY⟩

/-- `calculatePath` then `pathData`, as the hook composes them. -/
def pathDataOf (linkPositions : List LinkPosition) (activeIds : List String) :
    Option PathData :=
  (calculatePath linkPositions activeIds).map pathData

/-- Rendering of a rational as the dash strings print it: plain integer when
the denominator is 1, `num/den` otherwise. -/
def numStr (q : ℚ) : String :=
  if q.den = 1 then toString q.num
  else toString q.num ++ "/" ++ toString q.den

/-- The dash-attribute memo of ProgressNavScrollspy.tsx lines 117-130:
`("0", "0")` when `totalLength <= 0`, else the dash pattern
`activeLength totalLength` with offset `-activeStart`. -/
def dashAttrs (pd : PathData) : String × String :=
  if pd.totalLength ≤ 0 then ("0", "0")
  else
    (numStr pd.activeLength ++ " " ++ numStr pd.totalLength,
     "-" ++ numStr pd.activeStart)

/-! ## TOC autoscroll synchronizer (hooks.js lines 190-225) -/

/-- The measurements the autoscroll block reads: the content scroll
container, the TOC scroll container, the TOC container's viewport rectangle
and the first/last active link rectangles (viewport coordinates). -/
structure AutoscrollEnv where
  docScrollTop : ℚ
  docScrollHeight : ℚ
  docClientHeight : ℚ
  tocScrollTop : ℚ
  tocScrollHeight : ℚ
  tocClientHeight : ℚ
  tocRectTop : ℚ
  tocRectBottom : ℚ
  firstActiveTop : ℚ
  lastActiveBottom : ℚ
  scrollPadding : ℚ
deriving DecidableEq, Repr

/-- The keep-in-view branch (hooks.js lines 207-224): scroll up or down by
exactly the overflow past the padded band, else leave the offset alone. -/
def keepInView (e : AutoscrollEnv) : ℚ :=
  if e.firstActiveTop < e.tocRectTop + e.scrollPadding then
    e.tocScrollTop + (e.firstActiveTop - e.tocRectTop - e.scrollPadding)
  else if e.lastActiveBottom > e.tocRectBottom - e.scrollPadding then
    e.tocScrollTop + (e.lastActiveBottom - e.tocRectBottom + e.scrollPadding)
  else e.tocScrollTop

/-- The new TOC scroll offset the autoscroll block assigns (hooks.js lines
194-225): snap to 0 at document top, snap to the TOC maximum at document
bottom, otherwise keep the active range in view. -/
def autoscrollTocTop (e : AutoscrollEnv) : ℚ :=
  let tocMaxScroll := e.tocScrollHeight - e.tocClientHeight
  let docMaxScroll := e.docScrollHeight - e.docClientHeight
  if e.docScrollTop ≤ 0 then 0
  else if e.docScrollTop ≥ docMaxScroll - 1 then tocMaxScroll
  else keepInView e

/-- The TOC scroll offset after one whole update pass: the direct-DOM block
holding the autoscroll (hooks.js lines 159-230) runs only under the guard
`activeIdsStr !== lastActiveIdsRef.current`, where `activeIdsStr` joins the
active ids with commas (lines 157-158); inside it, the autoscroll fires
only when `activePositions` is non-empty (line 191). The indicator and TOC
refs are taken as present and every active id as measured in the TOC, so
`activePositions` is non-empty exactly when the active id list is; a pass
that skips the block leaves the TOC scroll offset untouched. -/
def updatePassTocTop (lastActiveIds : String) (activeIds : List String)
    (e : AutoscrollEnv) : ℚ :=
  if String.intercalate "," activeIds ≠ lastActiveIds then
    if activeIds ≠ [] then autoscrollTocTop e else e.tocScrollTop
  else e.tocScrollTop

/-! ## Nested TOC structure (src/src/utils.ts lines 103-148) -/

/-- A node of the nested TOC: a heading with its nested children. -/
inductive TocTree where
  | node (item : TocItem) (children : List TocTree)

/-- A stack frame of the functional reading of `buildNestedStructure`: the
item still open on the stack and the children attached to it so far. The
JavaScript original mutates `children` in place; since a node only receives
children while it is on the stack, attaching them when the frame is popped
builds the same tree. -/
abbrev BuildFrame := TocItem × List TocTree

/-- Attach a finished node: as last child of the stack's top frame, or as
the next root when the stack is empty (utils.ts lines 117-123). -/
def attachTree (t : TocTree) (st : List BuildFrame) (res : List TocTree) :
    List BuildFrame × List TocTree :=
  match st with
  | [] => ([], res ++ [t])
  | (pit, pch) :: rest => ((pit, pch ++ [t]) :: rest, res)

/-- Close every frame still open once the input is exhausted. -/
def finishStack (st : List BuildFrame) (res : List TocTree) : List TocTree :=
  match st with
  | [] => res
  | [(it, ch)] => res ++ [TocTree.node it ch]
  | (it, ch) :: (pit, pch) :: rest =>
    finishStack ((pit, pch ++ [TocTree.node it ch]) :: rest) res
termination_by st.length

/-- The pop loop of utils.ts line 113: close frames while the stack top's
level is at least the incoming item's level. -/
def popFrames (lvl : Nat) (st : List BuildFrame) (res : List TocTree) :
    List BuildFrame × List TocTree :=
  match st with
  | [] => ([], res)
  | (it, ch) :: rest =>
    if lvl ≤ it.level then
      match rest with
      | [] => popFrames lvl [] (res ++ [TocTree.node it ch])
      | (pit, pch) :: rest2 =>
        popFrames lvl ((pit, pch ++ [TocTree.node it ch]) :: rest2) res
    else ((it, ch) :: rest, res)
termination_by st.length

/-- One iteration of the `for` loop of utils.ts lines 109-126: pop frames
at the same or deeper level, then open a frame for the new item. -/
def buildStep (acc : List BuildFrame × List TocTree) (it : TocItem) :
    List BuildFrame × List TocTree :=
  let popped := popFrames it.level acc.1 acc.2
  ((it, []) :: popped.1, popped.2)

/-- `buildNestedStructure` (utils.ts lines 103-129): fold the flat catalog
through the stack machine, then close the remaining frames. -/
def buildNestedStructure (items : List TocItem) : List TocTree :=
  let acc := items.foldl buildStep ([], [])
  finishStack acc.1 acc.2

/-- `flattenStructure` (utils.ts lines 134-148): preorder traversal,
recovering the flat `{id, text, level}` records. -/
def flattenStructure (forest : List TocTree) : List TocItem :=
  match forest with
  | [] => []
  | TocTree.node it ch :: rest => it :: (flattenStructure ch ++ flattenStructure rest)
termination_by sizeOf forest

/-! ## Concrete fixture: three headings scrolled past (spec Scenario C) -/

/-- Fixture measurement: three headings entirely above the container top
(tops -3000, -2000, -1000). -/
def scenarioDom : String → Option Rect := fun s =>
  if s = "s1" then some ⟨-3000, -2100⟩
  else if s = "s2" then some ⟨-2000, -1100⟩
  else if s = "s3" then some ⟨-1000, -200⟩
  else none

/-- Fixture scroll view: container top 0, viewport height 800. -/
def scenarioView : ScrollView := ⟨0, 800, scenarioDom⟩

/-- Fixture catalog of three level-1 headings. -/
def scenarioItems : List TocItem :=
  [⟨"s1", "S1", 1⟩, ⟨"s2", "S2", 1⟩, ⟨"s3", "S3", 1⟩]

/-! ## Helper lemmas -/

/-- `getLastD` on the tail is the `getLast` of the whole cons cell. -/
theorem getLastD_eq_getLast {α : Type} (a : α) (l : List α) :
    l.getLastD a = (a :: l).getLast (List.cons_ne_nil a l) := by
  induction l generalizing a with
  | nil => rfl
  | cons b t ih =>
    rw [List.getLastD_cons, ih b, List.getLast_cons (List.cons_ne_nil b t)]

/-- Case analysis of one fallback-scan step: either the accumulator is kept
(and any measured-above candidate was beaten by an accumulator at least as
close), or the candidate replaces it (strictly closer than any
accumulator). -/
theorem scanStep_spec (v : ScrollView) (acc : Option (TocItem × ℚ)) (it : TocItem) :
    (scanStep v acc it = acc ∧
      (∀ r, v.dom it.id = some r → v.headingTop r < 0 →
        ∃ y e, acc = some (y, e) ∧ e ≤ |v.headingTop r|)) ∨
    (∃ r, v.dom it.id = some r ∧ v.headingTop r < 0 ∧
      scanStep v acc it = some (it, |v.headingTop r|) ∧
      (∀ y e, acc = some (y, e) → |v.headingTop r| < e)) := by
  rcases hdom : v.dom it.id with _ | r
  · left
    refine ⟨by simp [scanStep, hdom], ?_⟩
    intro r hr
    cases hr
  · by_cases hht : v.headingTop r < 0
    · rcases acc with _ | ⟨y, e⟩
      · right
        exact ⟨r, rfl, hht, by simp [scanStep, hdom, hht], fun y e h => by cases h⟩
      · by_cases hlt : |v.headingTop r| < e
        · right
          refine ⟨r, rfl, hht, by simp [scanStep, hdom, hht, hlt], ?_⟩
          intro y' e' heq
          obtain ⟨rfl, rfl⟩ := Prod.mk.inj (Option.some.inj heq)
          exact hlt
        · left
          refine ⟨by simp [scanStep, hdom, hht, hlt], ?_⟩
          intro r' hr' hht2
          obtain rfl := Option.some.inj hr'
          exact ⟨y, e, rfl, not_lt.1 hlt⟩
    · left
      refine ⟨by simp [scanStep, hdom, hht], ?_⟩
      intro r' hr' hht'
      obtain rfl := Option.some.inj hr'
      exact absurd hht' hht

/-- Invariant of the fallback scan: a `none` result means no measured item
was above and the accumulator was empty; a `some (x, d)` result came from
the accumulator or a measured-above list item, never exceeds the
accumulator's distance, and is minimal over every measured-above list
item. -/
theorem foldl_scanStep_spec (v : ScrollView) :
    ∀ (l : List TocItem) (acc : Option (TocItem × ℚ)),
      (l.foldl (scanStep v) acc = none →
        acc = none ∧ ∀ it ∈ l, ∀ r, v.dom it.id = some r →
          ¬ v.headingTop r < 0) ∧
      (∀ x d, l.foldl (scanStep v) acc = some (x, d) →
        (acc = some (x, d) ∨
          (x ∈ l ∧ ∃ r, v.dom x.id = some r ∧ v.headingTop r < 0 ∧
            d = |v.headingTop r|)) ∧
        (∀ y e, acc = some (y, e) → d ≤ e) ∧
        (∀ it ∈ l, ∀ r, v.dom it.id = some r → v.headingTop r < 0 →
          d ≤ |v.headingTop r|)) := by
  intro l
  induction l with
  | nil =>
    intro acc
    refine ⟨fun h => ⟨h, by simp⟩, fun x d h => ?_⟩
    simp only [List.foldl_nil] at h
    refine ⟨Or.inl h, fun y e he => ?_, by simp⟩
    rw [h] at he
    obtain ⟨rfl, rfl⟩ := Prod.mk.inj (Option.some.inj he)
    exact le_refl d
  | cons it l ih =>
    intro acc
    simp only [List.forall_mem_cons]
    constructor
    · intro h
      rw [List.foldl_cons] at h
      obtain ⟨hstep, hrest⟩ := (ih (scanStep v acc it)).1 h
      rcases scanStep_spec v acc it with ⟨hkeep, hguard⟩ | ⟨r, _, _, hsome, _⟩
      · rw [hkeep] at hstep
        refine ⟨hstep, fun r hr hht => ?_, hrest⟩
        obtain ⟨y, e, hacc, _⟩ := hguard r hr hht
        rw [hstep] at hacc
        cases hacc
      · rw [hsome] at hstep
        cases hstep
    · intro x d h
      rw [List.foldl_cons] at h
      obtain ⟨horigin, hmono, hmin⟩ := (ih (scanStep v acc it)).2 x d h
      rcases scanStep_spec v acc it with ⟨hkeep, hguard⟩ | ⟨r, hdom, hht, hsome, hless⟩
      · rw [hkeep] at horigin hmono
        refine ⟨?_, hmono, fun r hr hht => ?_, hmin⟩
        · rcases horigin with hacc | ⟨hmem, hr⟩
          · exact Or.inl hacc
          · exact Or.inr ⟨List.mem_cons_of_mem it hmem, hr⟩
        · obtain ⟨y, e, hacc, he_le⟩ := hguard r hr hht
          exact le_trans (hmono y e hacc) he_le
      · refine ⟨?_, ?_, fun r' hr' _ => ?_, hmin⟩
        · rcases horigin with hacc | ⟨hmem, hr⟩
          · rw [hsome] at hacc
            obtain ⟨rfl, rfl⟩ := Prod.mk.inj (Option.some.inj hacc)
            exact Or.inr ⟨List.mem_cons_self it l, r, hdom, hht, rfl⟩
          · exact Or.inr ⟨List.mem_cons_of_mem it hmem, hr⟩
        · intro y e hacc
          exact le_of_lt (lt_of_le_of_lt (hmono it _ hsome) (hless y e hacc))
        · rw [hdom] at hr'
          obtain rfl := Option.some.inj hr'
          exact hmono it _ hsome

/-- In a `Pairwise R` list, every element is the last one or relates to it. -/
theorem pairwise_rel_getLast {α : Type} {R : α → α → Prop} :
    ∀ (l : List α) (h : l ≠ []), l.Pairwise R →
      ∀ x ∈ l, x = l.getLast h ∨ R x (l.getLast h) := by
  intro l
  induction l with
  | nil => intro h; exact absurd rfl h
  | cons a t ih =>
    intro h hp x hx
    rcases t with _ | ⟨b, t2⟩
    · simp only [List.mem_singleton] at hx
      exact Or.inl (by simp [hx])
    · rw [List.getLast_cons (List.cons_ne_nil b t2)]
      rcases List.mem_cons.1 hx with rfl | hx2
      · exact Or.inr ((List.pairwise_cons.1 hp).1 _ (List.getLast_mem _))
      · exact ih (List.cons_ne_nil b t2) (List.pairwise_cons.1 hp).2 x hx2

/-- Preorder flattening distributes over forest concatenation. -/
theorem flattenStructure_append (l1 l2 : List TocTree) :
    flattenStructure (l1 ++ l2) = flattenStructure l1 ++ flattenStructure l2 := by
  induction l1 with
  | nil => simp [flattenStructure]
  | cons a rest ih =>
    obtain ⟨it, ch⟩ := a
    simp [flattenStructure, ih]

/-- Closing the top frame is one `attachTree` step. -/
theorem finishStack_cons (it : TocItem) (ch : List TocTree) (st : List BuildFrame)
    (res : List TocTree) :
    finishStack ((it, ch) :: st) res =
      finishStack (attachTree (TocTree.node it ch) st res).1
        (attachTree (TocTree.node it ch) st res).2 := by
  cases st with
  | nil => simp [finishStack, attachTree]
  | cons f rest =>
    obtain ⟨pit, pch⟩ := f
    simp [finishStack, attachTree]

/-- Attaching a node and closing the stack appends exactly that node's
preorder at the end. -/
theorem flattenStructure_finishStack_attachTree :
    ∀ (st : List BuildFrame) (res : List TocTree) (t : TocTree),
      flattenStructure (finishStack (attachTree t st res).1 (attachTree t st res).2) =
        flattenStructure (finishStack st res) ++ flattenStructure [t] := by
  intro st
  induction st with
  | nil =>
    intro res t
    simp [attachTree, finishStack, flattenStructure_append]
  | cons f rest ih =>
    intro res t
    obtain ⟨pit, pch⟩ := f
    simp only [show attachTree t ((pit, pch) :: rest) res =
      ((pit, pch ++ [t]) :: rest, res) from rfl]
    rw [finishStack_cons pit (pch ++ [t]) rest res,
      ih res (TocTree.node pit (pch ++ [t])),
      finishStack_cons pit pch rest res, ih res (TocTree.node pit pch)]
    simp [flattenStructure, flattenStructure_append]

/-- Popping frames before an insertion does not change the finished
forest: each pop is exactly one step of `finishStack`. -/
theorem finishStack_popFrames (lvl : Nat) (st : List BuildFrame) (res : List TocTree) :
    finishStack (popFrames lvl st res).1 (popFrames lvl st res).2 =
      finishStack st res := by
  induction st, res using popFrames.induct lvl with
  | case1 res => simp [popFrames]
  | case2 res pit pch hle ih =>
    rw [show popFrames lvl [(pit, pch)] res =
        popFrames lvl [] (res ++ [TocTree.node pit pch]) by
      simp [popFrames, hle]]
    rw [ih]
    simp [finishStack]
  | case3 res pit pch hle pit1 pch1 rest ih =>
    rw [show popFrames lvl ((pit, pch) :: (pit1, pch1) :: rest) res =
        popFrames lvl ((pit1, pch1 ++ [TocTree.node pit pch]) :: rest) res by
      simp [popFrames, hle]]
    rw [ih]
    conv_rhs => rw [finishStack]
  | case4 res pit pch rest hgt =>
    simp [popFrames.eq_def, hgt]

/-- Invariant of the build fold: finishing the machine state after
consuming a suffix appends exactly that suffix to the preorder. -/
theorem flattenStructure_foldl_buildStep :
    ∀ (l : List TocItem) (st : List BuildFrame) (res : List TocTree),
      flattenStructure
          (finishStack (l.foldl buildStep (st, res)).1 (l.foldl buildStep (st, res)).2) =
        flattenStructure (finishStack st res) ++ l := by
  intro l
  induction l with
  | nil => intro st res; simp
  | cons it rest ih =>
    intro st res
    rw [List.foldl_cons,
      show buildStep (st, res) it =
        ((it, []) :: (popFrames it.level st res).1, (popFrames it.level st res).2)
        from rfl,
      ih,
      finishStack_cons it [] (popFrames it.level st res).1 (popFrames it.level st res).2,
      flattenStructure_finishStack_attachTree,
      finishStack_popFrames it.level st res]
    simp [flattenStructure]

/-! ## Claim theorems -/

/-- C1: a catalog item whose backing element is measured is kept by the
visibility stage of `updateActiveItems` exactly when
`headingTop < viewportHeight * viewportThreshold` and
`headingBottom > -offset`; whenever that stage is non-empty it is the
resolver's ActiveSet verbatim, so the predicate decides ActiveSet
membership; the defaults are `offset = 100` and `viewportThreshold = 0.8`. -/
theorem visibleItems_mem_iff (v : ScrollView) (offset viewportThreshold : ℚ)
    (items : List TocItem) (it : TocItem) (r : Rect)
    (hm : v.dom it.id = some r) :
    (it ∈ visibleItems v offset viewportThreshold items ↔
      it ∈ items ∧
        v.headingTop r < v.viewportHeight * viewportThreshold ∧
        v.headingBottom r > -offset) ∧
    (visibleItems v offset viewportThreshold items ≠ [] →
      resolveActive v offset viewportThreshold items =
        visibleItems v offset viewportThreshold items) ∧
    defaultOffset = 100 ∧ defaultViewportThreshold = 8 / 10 := by
  refine ⟨?_, ?_, rfl, rfl⟩
  · simp only [visibleItems, List.mem_filter, hm, isVisible, Bool.and_eq_true,
      decide_eq_true_eq]
  · intro hn
    cases hv : (visibleItems v offset viewportThreshold items).isEmpty with
    | true => exact absurd (List.isEmpty_iff.1 hv) hn
    | false => simp [resolveActive, hv]

/-- Witness for C1: one measured heading inside the 0.8 band of an 800px
viewport is a member of the visibility stage's output. -/
theorem visibleItems_mem_iff_witness :
    (((⟨"a", "A", 1⟩ : TocItem) ∈
        visibleItems ⟨0, 800, fun s => if s = "a" then some ⟨10, 50⟩ else none⟩
          100 (8 / 10) [⟨"a", "A", 1⟩]) ↔
      (⟨"a", "A", 1⟩ : TocItem) ∈ [(⟨"a", "A", 1⟩ : TocItem)] ∧
        ScrollView.headingTop ⟨0, 800, fun s => if s = "a" then some ⟨10, 50⟩ else none⟩
            ⟨10, 50⟩ < 800 * (8 / 10) ∧
        ScrollView.headingBottom ⟨0, 800, fun s => if s = "a" then some ⟨10, 50⟩ else none⟩
            ⟨10, 50⟩ > -100) ∧
    defaultOffset = 100 ∧ defaultViewportThreshold = 8 / 10 :=
  ⟨(visibleItems_mem_iff ⟨0, 800, fun s => if s = "a" then some ⟨10, 50⟩ else none⟩
      100 (8 / 10) [⟨"a", "A", 1⟩] ⟨"a", "A", 1⟩ ⟨10, 50⟩ (by decide)).1,
   (visibleItems_mem_iff ⟨0, 800, fun s => if s = "a" then some ⟨10, 50⟩ else none⟩
      100 (8 / 10) [⟨"a", "A", 1⟩] ⟨"a", "A", 1⟩ ⟨10, 50⟩ (by decide)).2.2⟩

/-- C2: whenever the visibility stage yields an empty set for a non-empty
catalog, the resolver returns exactly one item: the measured item closest
above the viewport (minimal `|headingTop|` among items with
`headingTop < 0`) when one exists, else the first catalog item; and when
every item is measured above the viewport with tops strictly increasing in
catalog order (scrolled past the last heading), that item is the last
heading. -/
theorem resolveActive_fallback (v : ScrollView) (offset viewportThreshold : ℚ)
    (items : List TocItem)
    (hvis : visibleItems v offset viewportThreshold items = [])
    (hne : items ≠ []) :
    (∃ x, resolveActive v offset viewportThreshold items = [x]) ∧
    (∀ x d, closestScan v items = some (x, d) →
      resolveActive v offset viewportThreshold items = [x] ∧
      x ∈ items ∧
      (∃ r, v.dom x.id = some r ∧ v.headingTop r < 0 ∧ d = |v.headingTop r|) ∧
      (∀ it ∈ items, ∀ r, v.dom it.id = some r → v.headingTop r < 0 →
        d ≤ |v.headingTop r|)) ∧
    (closestScan v items = none →
      (∀ it ∈ items, ∀ r, v.dom it.id = some r → ¬ v.headingTop r < 0) ∧
      resolveActive v offset viewportThreshold items = [items.head hne]) ∧
    ((∀ it ∈ items, ∃ r, v.dom it.id = some r ∧ v.headingTop r < 0) →
      items.Pairwise (fun a b => ∀ ra rb, v.dom a.id = some ra →
        v.dom b.id = some rb → ra.top < rb.top) →
      resolveActive v offset viewportThreshold items = [items.getLast hne]) := by
  have hres_some : ∀ x d, closestScan v items = some (x, d) →
      resolveActive v offset viewportThreshold items = [x] := by
    intro x d hc
    simp [resolveActive, hvis, hc]
  have hres_none : closestScan v items = none →
      resolveActive v offset viewportThreshold items = [items.head hne] := by
    intro hc
    rcases items with _ | ⟨x0, xs⟩
    · exact absurd rfl hne
    · simp [resolveActive, hvis, hc]
  refine ⟨?_, ?_, ?_, ?_⟩
  · rcases hc : closestScan v items with _ | ⟨x, d⟩
    · exact ⟨items.head hne, hres_none hc⟩
    · exact ⟨x, hres_some x d hc⟩
  · intro x d hc
    obtain ⟨horigin, _, hmin⟩ := (foldl_scanStep_spec v items none).2 x d hc
    rcases horigin with h | ⟨hmem, hr⟩
    · cases h
    · exact ⟨hres_some x d hc, hmem, hr, hmin⟩
  · intro hc
    exact ⟨((foldl_scanStep_spec v items none).1 hc).2, hres_none hc⟩
  · intro habove hpw
    rcases hc : closestScan v items with _ | ⟨x, d⟩
    · obtain ⟨_, hno⟩ := (foldl_scanStep_spec v items none).1 hc
      obtain ⟨r, hdom, hht⟩ := habove (items.head hne) (List.head_mem hne)
      exact absurd hht (hno _ (List.head_mem hne) r hdom)
    · obtain ⟨horigin, _, hmin⟩ := (foldl_scanStep_spec v items none).2 x d hc
      rcases horigin with h | ⟨hmem, r, hdomx, hhtx, hd⟩
      · cases h
      · have hxlast : x = items.getLast hne := by
          rcases pairwise_rel_getLast items hne hpw x hmem with h | hrel
          · exact h
          · exfalso
            obtain ⟨rl, hdoml, hhtl⟩ := habove _ (List.getLast_mem hne)
            have hlt := hrel r rl hdomx hdoml
            have hminl := hmin _ (List.getLast_mem hne) rl hdoml hhtl
            rw [hd, abs_of_neg hhtx, abs_of_neg hhtl] at hminl
            simp only [ScrollView.headingTop, neg_sub] at hminl
            linarith
        exact hxlast ▸ hres_some x d hc

/-- Witness for C2, Scenario C: with all three fixture headings scrolled
past, the fallback selects the last heading. -/
theorem resolveActive_fallback_witness :
    resolveActive scenarioView 100 (8 / 10) scenarioItems = [⟨"s3", "S3", 1⟩] := by
  have hvis : visibleItems scenarioView 100 (8 / 10) scenarioItems = [] := by
    have p1 : ∀ r : Rect, r.bottom ≤ -100 →
        isVisible scenarioView 100 (8 / 10) r = false := by
      intro r h
      simp only [isVisible, ScrollView.headingBottom,
        show scenarioView.containerTop = 0 from rfl]
      simp only [Bool.and_eq_false_iff, decide_eq_false_iff_not, not_lt]
      right
      linarith
    show List.filter _ scenarioItems = []
    rw [scenarioItems]
    rw [List.filter_cons, List.filter_cons, List.filter_cons, List.filter_nil]
    simp only [show scenarioView.dom "s1" = some ⟨-3000, -2100⟩ from rfl,
      show scenarioView.dom "s2" = some ⟨-2000, -1100⟩ from rfl,
      show scenarioView.dom "s3" = some ⟨-1000, -200⟩ from rfl]
    rw [p1 ⟨-3000, -2100⟩ (by norm_num), p1 ⟨-2000, -1100⟩ (by norm_num),
      p1 ⟨-1000, -200⟩ (by norm_num)]
    simp
  have hc : closestScan scenarioView scenarioItems =
      some (⟨"s3", "S3", 1⟩, 1000) := by
    have e1 : scanStep scenarioView none ⟨"s1", "S1", 1⟩ =
        some (⟨"s1", "S1", 1⟩, 3000) := by
      norm_num [scanStep, show scenarioView.dom "s1" = some ⟨-3000, -2100⟩ from rfl,
        ScrollView.headingTop, show scenarioView.containerTop = 0 from rfl]
    have e2 : scanStep scenarioView (some (⟨"s1", "S1", 1⟩, 3000)) ⟨"s2", "S2", 1⟩ =
        some (⟨"s2", "S2", 1⟩, 2000) := by
      norm_num [scanStep, show scenarioView.dom "s2" = some ⟨-2000, -1100⟩ from rfl,
        ScrollView.headingTop, show scenarioView.containerTop = 0 from rfl]
    have e3 : scanStep scenarioView (some (⟨"s2", "S2", 1⟩, 2000)) ⟨"s3", "S3", 1⟩ =
        some (⟨"s3", "S3", 1⟩, 1000) := by
      norm_num [scanStep, show scenarioView.dom "s3" = some ⟨-1000, -200⟩ from rfl,
        ScrollView.headingTop, show scenarioView.containerTop = 0 from rfl]
    show List.foldl (scanStep scenarioView) none scenarioItems = _
    rw [scenarioItems, List.foldl_cons, e1, List.foldl_cons, e2, List.foldl_cons,
      e3, List.foldl_nil]
  exact ((resolveActive_fallback scenarioView 100 (8 / 10) scenarioItems hvis
    (by decide)).2.1 ⟨"s3", "S3", 1⟩ 1000 hc).1

/-- C3: for a non-empty catalog in which every heading has been measured,
the active-set resolver's output is non-empty (the fallback guarantees it). -/
theorem resolveActive_ne_nil (v : ScrollView) (offset viewportThreshold : ℚ)
    (items : List TocItem) (hne : items ≠ [])
    (hmeas : ∀ it ∈ items, (v.dom it.id).isSome) :
    resolveActive v offset viewportThreshold items ≠ [] := by
  rcases items with _ | ⟨x, xs⟩
  · exact absurd rfl hne
  · unfold resolveActive
    cases hv : (visibleItems v offset viewportThreshold (x :: xs)).isEmpty with
    | true =>
      rcases hc : closestScan v (x :: xs) with _ | ⟨it, d⟩ <;> simp [hv, hc]
    | false =>
      simp only [hv, Bool.false_eq_true, if_false]
      intro h
      rw [h] at hv
      simp at hv

/-- Witness for C3: a one-item catalog, measured, placed below the viewport
threshold, still yields a non-empty active set. -/
theorem resolveActive_ne_nil_witness :
    resolveActive ⟨0, 800, fun s => if s = "a" then some ⟨900, 950⟩ else none⟩
      100 (8 / 10) [⟨"a", "A", 1⟩] ≠ [] :=
  resolveActive_ne_nil ⟨0, 800, fun s => if s = "a" then some ⟨900, 950⟩ else none⟩
    100 (8 / 10) [⟨"a", "A", 1⟩] (by decide) (by decide)

/-- C4: for a non-empty link-position array the computed `totalLength` is
the last link's bottom minus the first link's top (first/last in catalog
order, active status ignored), and for a non-empty active set `activeStart`
is the first active link's top minus the first link's top and
`activeLength` is the last active link's bottom minus the first active
link's top. -/
theorem pathDataOf_spec (lps : List LinkPosition) (activeIds : List String)
    (hne : lps ≠ []) :
    ∃ pd, pathDataOf lps activeIds = some pd ∧
      ((lps.head hne).top ≤ (lps.getLast hne).bottom →
        pd.totalLength = (lps.getLast hne).bottom - (lps.head hne).top) ∧
      (∀ hact : activeLinks lps activeIds ≠ [],
        (lps.head hne).top < (lps.getLast hne).bottom →
          pd.activeStart =
            ((activeLinks lps activeIds).head hact).top - (lps.head hne).top ∧
          pd.activeLength =
            ((activeLinks lps activeIds).getLast hact).bottom -
              ((activeLinks lps activeIds).head hact).top) := by
  rcases lps with _ | ⟨lp0, rest⟩
  · exact absurd rfl hne
  have hlast : (rest.getLastD lp0) = (lp0 :: rest).getLast hne :=
    getLastD_eq_getLast lp0 rest
  have hpd : ∀ s e aS aE : ℚ, pathData ⟨s, e, aS, aE⟩ =
      if e - s ≤ 0 then ⟨0, 0, 0⟩ else ⟨e - s, aS - s, aE - aS⟩ :=
    fun _ _ _ _ => rfl
  rcases hA : activeLinks (lp0 :: rest) activeIds with _ | ⟨a0, arest⟩
  · refine ⟨pathData ⟨lp0.top, (rest.getLastD lp0).bottom, lp0.top, lp0.top⟩,
      ?_, ?_, fun hact _ => absurd rfl hact⟩
    · simp only [pathDataOf, calculatePath, hA]
      rfl
    · intro hle
      simp only [List.head_cons, hlast] at hle ⊢
      rw [hpd]
      split_ifs with h0
      · have hz : ((lp0 :: rest).getLast hne).bottom - lp0.top = 0 :=
          le_antisymm h0 (by linarith)
        simp [hz]
      · rfl
  · refine ⟨pathData ⟨lp0.top, (rest.getLastD lp0).bottom, a0.top,
      (arest.getLastD a0).bottom⟩, ?_, ?_, ?_⟩
    · simp only [pathDataOf, calculatePath, hA]
      rfl
    · intro hle
      simp only [List.head_cons, hlast] at hle ⊢
      rw [hpd]
      split_ifs with h0
      · have hz : ((lp0 :: rest).getLast hne).bottom - lp0.top = 0 :=
          le_antisymm h0 (by linarith)
        simp [hz]
      · rfl
    · intro hact hlt
      simp only [List.head_cons, hlast] at hlt ⊢
      have haR : (a0 :: arest).getLast hact = arest.getLastD a0 :=
        (getLastD_eq_getLast a0 arest).symm
      rw [haR, hpd, if_neg (by linarith)]
      exact ⟨rfl, rfl⟩

/-- Witness for C4: the three-link layout spanning 0-60 with the last two
links active yields the instantiated geometry facts. -/
theorem pathDataOf_spec_witness :
    ∃ pd,
      pathDataOf [⟨"a", 0, 20⟩, ⟨"b", 20, 40⟩, ⟨"c", 40, 60⟩] ["b", "c"] = some pd ∧
      ((([⟨"a", 0, 20⟩, ⟨"b", 20, 40⟩, ⟨"c", 40, 60⟩] :
            List LinkPosition).head (by decide)).top ≤
          (([⟨"a", 0, 20⟩, ⟨"b", 20, 40⟩, ⟨"c", 40, 60⟩] :
            List LinkPosition).getLast (by decide)).bottom →
        pd.totalLength =
          (([⟨"a", 0, 20⟩, ⟨"b", 20, 40⟩, ⟨"c", 40, 60⟩] :
            List LinkPosition).getLast (by decide)).bottom -
            (([⟨"a", 0, 20⟩, ⟨"b", 20, 40⟩, ⟨"c", 40, 60⟩] :
              List LinkPosition).head (by decide)).top) ∧
      (∀ hact : activeLinks [⟨"a", 0, 20⟩, ⟨"b", 20, 40⟩, ⟨"c", 40, 60⟩]
            ["b", "c"] ≠ [],
        (([⟨"a", 0, 20⟩, ⟨"b", 20, 40⟩, ⟨"c", 40, 60⟩] :
            List LinkPosition).head (by decide)).top <
            (([⟨"a", 0, 20⟩, ⟨"b", 20, 40⟩, ⟨"c", 40, 60⟩] :
              List LinkPosition).getLast (by decide)).bottom →
          pd.activeStart =
            ((activeLinks [⟨"a", 0, 20⟩, ⟨"b", 20, 40⟩, ⟨"c", 40, 60⟩]
                ["b", "c"]).head hact).top -
              (([⟨"a", 0, 20⟩, ⟨"b", 20, 40⟩, ⟨"c", 40, 60⟩] :
                List LinkPosition).head (by decide)).top ∧
          pd.activeLength =
            ((activeLinks [⟨"a", 0, 20⟩, ⟨"b", 20, 40⟩, ⟨"c", 40, 60⟩]
                ["b", "c"]).getLast hact).bottom -
              ((activeLinks [⟨"a", 0, 20⟩, ⟨"b", 20, 40⟩, ⟨"c", 40, 60⟩]
                ["b", "c"]).head hact).top) :=
  pathDataOf_spec [⟨"a", 0, 20⟩, ⟨"b", 20, 40⟩, ⟨"c", 40, 60⟩] ["b", "c"] (by decide)

/-- C5: the dash attributes are `("0", "0")` whenever `totalLength ≤ 0`,
and otherwise the pattern `[activeLength, totalLength]` with offset
`-activeStart`; equal triples give equal strings. -/
theorem dashAttrs_spec (pd : PathData) :
    (pd.totalLength ≤ 0 → dashAttrs pd = ("0", "0")) ∧
    (0 < pd.totalLength →
      dashAttrs pd =
        (numStr pd.activeLength ++ " " ++ numStr pd.totalLength,
         "-" ++ numStr pd.activeStart)) ∧
    (∀ pd' : PathData, pd = pd' → dashAttrs pd = dashAttrs pd') := by
  refine ⟨fun h => ?_, fun h => ?_, fun pd' h => by rw [h]⟩
  · simp [dashAttrs, h]
  · simp [dashAttrs, not_le.2 h]

/-- Witness for C5: the degenerate triple is suppressed and a concrete
positive triple renders the dash pattern. -/
theorem dashAttrs_spec_witness :
    dashAttrs ⟨0, 1, 2⟩ = ("0", "0") ∧ dashAttrs ⟨30, 5, 10⟩ = ("10 30", "-5") :=
  ⟨(dashAttrs_spec ⟨0, 1, 2⟩).1 (by norm_num),
   ((dashAttrs_spec ⟨30, 5, 10⟩).2.1 (by norm_num)).trans (by decide)⟩

/-- C6: a valid populated cache is returned unchanged; a stale or empty
cache triggers a full recomputation that repopulates the cache and clears
staleness; a `get` right after a resize invalidation returns exactly the
from-scratch recomputation. -/
theorem getLinkPositions_spec (s : PositionCache) (dom : TocDom) :
    (∀ m, s.invalidated = false → s.cache = some m →
      getLinkPositions s dom = (m, s)) ∧
    (s.invalidated = true ∨ s.cache = none →
      getLinkPositions s dom =
        (recomputePositions dom, ⟨some (recomputePositions dom), false⟩)) ∧
    (getLinkPositions (handleResize s) dom).1 = recomputePositions dom := by
  obtain ⟨c, inv⟩ := s
  refine ⟨fun m h1 h2 => ?_, fun h => ?_, ?_⟩
  · simp only at h1 h2
    subst h1; subst h2; rfl
  · rcases inv with _ | _ <;> rcases c with _ | m <;>
      simp_all [getLinkPositions]
  · rfl

/-- Witness for C6: after invalidating a populated cache, `get` returns the
recomputation of a concrete two-link layout. -/
theorem getLinkPositions_spec_witness :
    (getLinkPositions
        (handleResize ⟨some [("stale", ⟨0, 0⟩)], false⟩)
        ⟨10, [⟨some "a", ⟨12, 30⟩⟩, ⟨none, ⟨0, 0⟩⟩, ⟨some "b", ⟨30, 48⟩⟩]⟩).1 =
      recomputePositions
        ⟨10, [⟨some "a", ⟨12, 30⟩⟩, ⟨none, ⟨0, 0⟩⟩, ⟨some "b", ⟨30, 48⟩⟩]⟩ :=
  (getLinkPositions_spec ⟨some [("stale", ⟨0, 0⟩)], false⟩
    ⟨10, [⟨some "a", ⟨12, 30⟩⟩, ⟨none, ⟨0, 0⟩⟩, ⟨some "b", ⟨30, 48⟩⟩]⟩).2.2

/-- C7 counterexample: an update pass with the non-empty active set
unchanged (id string "s1" on both passes) and the document at offset 0
leaves the TOC offset at 7 instead of snapping it to 0 — the autoscroll
block is skipped by the line-159 guard. -/
theorem updatePassTocTop_counterexample :
    updatePassTocTop "s1" ["s1"] ⟨0, 100, 50, 7, 60, 30, 0, 100, 30, 70, 20⟩ = 7 ∧
    updatePassTocTop "s1" ["s1"] ⟨0, 100, 50, 7, 60, 30, 0, 100, 30, 70, 20⟩ ≠ 0 ∧
    (⟨0, 100, 50, 7, 60, 30, 0, 100, 30, 70, 20⟩ : AutoscrollEnv).docScrollTop ≤ 0 ∧
    (["s1"] : List String) ≠ [] := by
  refine ⟨?_, ?_, by norm_num, by decide⟩ <;>
    norm_num [updatePassTocTop, show String.intercalate "," ["s1"] = "s1" from rfl]

/-- C7 amended: the extreme snapping and keep-in-view priority hold on
every update pass whose non-empty active set differs from the previous
pass's (the direct-DOM guard of hooks.js line 159); on such a pass the TOC
offset snaps to exactly 0 at document top, else to exactly
`scrollHeight - clientHeight` at document bottom, and only otherwise gets
the keep-in-view adjustment; a pass with an unchanged or empty active id
string leaves the TOC offset untouched. -/
theorem updatePassTocTop_spec (lastActiveIds : String) (activeIds : List String)
    (e : AutoscrollEnv) :
    (String.intercalate "," activeIds = lastActiveIds →
      updatePassTocTop lastActiveIds activeIds e = e.tocScrollTop) ∧
    (activeIds = [] →
      updatePassTocTop lastActiveIds activeIds e = e.tocScrollTop) ∧
    (String.intercalate "," activeIds ≠ lastActiveIds → activeIds ≠ [] →
      updatePassTocTop lastActiveIds activeIds e = autoscrollTocTop e ∧
      (e.docScrollTop ≤ 0 → updatePassTocTop lastActiveIds activeIds e = 0) ∧
      (0 < e.docScrollTop →
        e.docScrollTop ≥ e.docScrollHeight - e.docClientHeight - 1 →
        updatePassTocTop lastActiveIds activeIds e =
          e.tocScrollHeight - e.tocClientHeight) ∧
      (0 < e.docScrollTop →
        e.docScrollTop < e.docScrollHeight - e.docClientHeight - 1 →
        updatePassTocTop lastActiveIds activeIds e = keepInView e)) := by
  refine ⟨fun h => ?_, fun h => ?_, fun h1 h2 => ?_⟩
  · simp [updatePassTocTop, h]
  · rcases eq_or_ne (String.intercalate "," activeIds) lastActiveIds with hs | hs <;>
      simp [updatePassTocTop, h, hs]
  · have hrun : updatePassTocTop lastActiveIds activeIds e = autoscrollTocTop e := by
      simp [updatePassTocTop, h1, h2]
    rw [hrun]
    unfold autoscrollTocTop
    refine ⟨rfl, fun h => by rw [if_pos h], fun ha hb => ?_, fun ha hb => ?_⟩
    · rw [if_neg (not_le.2 ha), if_pos hb]
    · rw [if_neg (not_le.2 ha), if_neg (not_le.2 hb)]

/-- Witness for C7: on a pass whose active set changed from "s1" to
["s1", "s2"], at a concrete mid-document offset neither snap fires and the
result is the keep-in-view adjustment; an unchanged pass returns the
current offset. -/
theorem updatePassTocTop_spec_witness :
    updatePassTocTop "s1" ["s1", "s2"] ⟨5, 100, 50, 7, 60, 30, 0, 100, 30, 70, 20⟩ =
      keepInView ⟨5, 100, 50, 7, 60, 30, 0, 100, 30, 70, 20⟩ ∧
    updatePassTocTop "s1" ["s1"] ⟨5, 100, 50, 7, 60, 30, 0, 100, 30, 70, 20⟩ = 7 :=
  ⟨((updatePassTocTop_spec "s1" ["s1", "s2"]
      ⟨5, 100, 50, 7, 60, 30, 0, 100, 30, 70, 20⟩).2.2
      (by decide) (by decide)).2.2.2 (by norm_num) (by norm_num),
   (updatePassTocTop_spec "s1" ["s1"]
      ⟨5, 100, 50, 7, 60, 30, 0, 100, 30, 70, 20⟩).1 (by decide)⟩

/-- C8: away from both document extremes, when the active link range
already lies inside the padded TOC viewport band, the autoscroll pass
leaves the TOC scroll offset unchanged; the default padding is 20. -/
theorem autoscroll_idempotent (e : AutoscrollEnv)
    (h1 : 0 < e.docScrollTop)
    (h2 : e.docScrollTop < e.docScrollHeight - e.docClientHeight - 1)
    (h3 : e.tocRectTop + e.scrollPadding ≤ e.firstActiveTop)
    (h4 : e.lastActiveBottom ≤ e.tocRectBottom - e.scrollPadding) :
    autoscrollTocTop e = e.tocScrollTop ∧ defaultTocScrollPadding = 20 := by
  refine ⟨?_, rfl⟩
  unfold autoscrollTocTop keepInView
  rw [if_neg (not_le.2 h1), if_neg (not_le.2 h2), if_neg (not_lt.2 h3),
    if_neg (not_lt.2 h4)]

/-- Witness for C8: a concrete comfortably-in-view state is left at its
current offset 7. -/
theorem autoscroll_idempotent_witness :
    autoscrollTocTop ⟨5, 100, 50, 7, 60, 30, 0, 100, 30, 70, 20⟩ = 7 ∧
      defaultTocScrollPadding = 20 :=
  autoscroll_idempotent ⟨5, 100, 50, 7, 60, 30, 0, 100, 30, 70, 20⟩
    (by norm_num) (by norm_num) (by norm_num) (by norm_num)

/-- C9 counterexample: no positive epsilon makes the code's velocity equal
`|delta| / max(elapsed, epsilon)` everywhere; at `delta = 5, elapsed = 0`
the code yields 0 while the claimed formula is strictly positive. -/
theorem computeVelocity_counterexample :
    ¬ ∃ ε : ℚ, 0 < ε ∧ ∀ cur lastTop ct lt : ℚ,
        computeVelocity cur lastTop ct lt = |cur - lastTop| / max (ct - lt) ε := by
  rintro ⟨ε, hε, h⟩
  have h0 := h 5 0 0 0
  have hl : computeVelocity 5 0 0 0 = 0 := by norm_num [computeVelocity]
  have hr : |(5 : ℚ) - 0| / max ((0 : ℚ) - 0) ε = 5 / ε := by
    rw [sub_zero, sub_zero, max_eq_right hε.le]
    norm_num
  rw [hl, hr] at h0
  exact absurd h0.symm (ne_of_gt (div_pos (by norm_num) hε))

/-- C9 as the code computes it: velocity is `|delta| / elapsed` for positive
elapsed time and 0 otherwise (so it is defined, finite and in fact 0 when
the elapsed time is 0), is never negative, and `isFastScrolling` holds
exactly when the velocity exceeds the threshold, whose default is 2. -/
theorem computeVelocity_spec (cur lastTop ct lt : ℚ) :
    (lt < ct → computeVelocity cur lastTop ct lt = |cur - lastTop| / (ct - lt)) ∧
    (ct - lt ≤ 0 → computeVelocity cur lastTop ct lt = 0) ∧
    0 ≤ computeVelocity cur lastTop ct lt ∧
    (∀ velocity threshold : ℚ,
      isFastScrolling velocity threshold = true ↔ velocity > threshold) ∧
    defaultVelocityThreshold = 2 := by
  refine ⟨fun h => ?_, fun h => ?_, ?_, fun velocity threshold => ?_, rfl⟩
  · simp [computeVelocity, sub_pos.2 h]
  · simp [computeVelocity, not_lt.2 h]
  · have hdef : computeVelocity cur lastTop ct lt =
        if 0 < ct - lt then |cur - lastTop| / (ct - lt) else 0 := rfl
    rw [hdef]
    split_ifs with hpos
    · positivity
    · exact le_refl 0
  · simp [isFastScrolling]

/-- Witness for C9: a 10px move over 2ms gives velocity 5, which counts as
fast scrolling at the default threshold 2. -/
theorem computeVelocity_spec_witness :
    computeVelocity 10 0 2 0 = 5 ∧ isFastScrolling 5 2 = true :=
  ⟨((computeVelocity_spec 10 0 2 0).1 (by norm_num)).trans (by norm_num),
   ((computeVelocity_spec 10 0 2 0).2.2.2.1 5 2).2 (by norm_num)⟩

/-- C10: flattening the nested structure built from any flat heading list
returns exactly that list — rendered TOC link order equals catalog order,
with every id, text and level preserved. -/
theorem flattenStructure_buildNestedStructure (items : List TocItem) :
    flattenStructure (buildNestedStructure items) = items := by
  have h := flattenStructure_foldl_buildStep items [] []
  simpa [buildNestedStructure, finishStack, flattenStructure] using h

end PNS
